import Mathlib

/-!
Shallow embedding of the trigger/mapping/playback core of the audio-feed
application (`src/App.tsx`) and proofs of its specified properties.

Modelling conventions:
* JavaScript strings are `String`; a value of TypeScript type
  `string | undefined` is `Option String`.
* The mapping table (`Record<string, string | undefined>`) is an ordered
  association list `List (String × Option String)`: a key that is present
  with value `undefined` (as produced by `handleSetMapping(key, undefined)`)
  is an entry whose second component is `none`, which differs from the key
  being absent — exactly as for a JavaScript object.
* Asynchronous platform calls that can throw are modelled by a boolean
  outcome passed in as a parameter; a thrown exception is an `Except.error`.
* React `useState` cells become fields of explicit state records; each
  event handler is a pure state-transition function.
-/

namespace AudioFeed

/-- The three gestures of the trigger space (`type Gesture` in the source). -/
inductive Gesture
  | short
  | long
  | double
deriving DecidableEq, Repr

/-- The string value each gesture literal denotes in the source. -/
def gestureKey : Gesture → String
  | .short => "short"
  | .long => "long"
  | .double => "double"

/-- A trigger: a button id paired with a gesture (`type Trigger`). -/
structure Trigger where
  buttonId : String
  gesture : Gesture
deriving DecidableEq, Repr

/-- `triggerKey` from the source: the template literal
`` `${trigger.buttonId}-${trigger.gesture}` ``. -/
def triggerKey (t : Trigger) : String :=
  t.buttonId ++ "-" ++ gestureKey t.gesture

/-- A catalog entry (`type SoundItem`). -/
structure SoundItem where
  id : String
  name : String
  uri : String
deriving DecidableEq, Repr

/-- The in-memory mapping table (`type Mapping = Record<string, string | undefined>`),
as an ordered association list; see the module conventions above. -/
abbrev Mapping := List (String × Option String)

/-- The fixed button set (`BUTTONS` in the source), ids with labels. -/
def BUTTONS : List (String × String) :=
  [("b1", "Button 1"), ("b2", "Button 2"), ("b3", "Button 3")]

/-- The gesture list with labels (`GESTURES` in the source). -/
def GESTURES : List (Gesture × String) :=
  [(.short, "Short press"), (.long, "Long press"), (.double, "Double tap")]

/-- The 9-element trigger space (`TRIGGERS`), buttons × gestures. -/
def TRIGGERS : List Trigger :=
  BUTTONS.flatMap (fun b => GESTURES.map (fun g => ⟨b.1, g.1⟩))

/-- JavaScript property read `mappings[key]`: `undefined` both when the key
is absent and when it is present with value `undefined`. -/
def mapLookup (m : Mapping) (key : String) : Option String :=
  match m.find? (fun e => e.1 == key) with
  | none => none
  | some e => e.2

/-- Whether a key is present in the mapping object at all
(JavaScript `key in mappings`), regardless of its value. -/
def mapHasKey (m : Mapping) (key : String) : Bool :=
  m.any (fun e => e.1 == key)

/-! ## Persistence adapter (`loadSounds` / `saveSounds` / `loadMappings` / `saveMappings`)

The key-value store holds a JSON string per document.  `JSON.parse` either
throws (the string is not JSON) or yields a value that the source casts
unchecked to the document's type; `JSON.stringify` of a well-typed document
is faithful except that object properties whose value is `undefined` are
omitted.  We model a stored cell at the level of the parsed value:
`missing` (no string, or an empty string — both falsy in `if (!raw)`),
`malformed` (a string on which `JSON.parse` throws, caught and turned into
the empty default), or the parsed typed value.  The load functions are
total Lean functions returning plain values, mirroring that the source
functions never propagate an error to their caller. -/

/-- The persisted `sounds` document cell. -/
inductive StoredSounds
  | missing
  | malformed
  | valid (sounds : List SoundItem)
deriving DecidableEq, Repr

/-- The persisted `mappings` document cell: a parsed JSON object has only
defined string values, hence `List (String × String)`. -/
inductive StoredMappings
  | missing
  | malformed
  | valid (entries : List (String × String))
deriving DecidableEq, Repr

/-- `saveSounds`: `JSON.stringify` of a list of string-field records is
faithful, so the stored cell holds the list itself. -/
def saveSounds (sounds : List SoundItem) : StoredSounds :=
  .valid sounds

/-- `loadSounds`: empty on a missing cell (`if (!raw) return []`) and on a
parse failure (`catch { return [] }`); otherwise the parsed value. -/
def loadSounds : StoredSounds → List SoundItem
  | .missing => []
  | .malformed => []
  | .valid sounds => sounds

/-- The object `JSON.stringify(mappings)` serializes: properties whose
value is `undefined` are omitted, key order is preserved. -/
def serializeMapping (m : Mapping) : List (String × String) :=
  m.filterMap (fun e => e.2.map (fun v => (e.1, v)))

/-- `saveMappings`: stringify the mapping object (dropping
`undefined`-valued properties). -/
def saveMappings (m : Mapping) : StoredMappings :=
  .valid (serializeMapping m)

/-- `loadMappings`: empty object on a missing cell or a parse failure;
otherwise the parsed object, whose values are all defined strings. -/
def loadMappings : StoredMappings → Mapping
  | .missing => []
  | .malformed => []
  | .valid entries => entries.map (fun e => (e.1, some e.2))

/-! ## Audio player (`useAudioPlayer`) -/

/-- Playback status values of the `playbackState` state cell. -/
inductive PlayState
  | playing
  | paused
deriving DecidableEq, Repr

/-- State of the `useAudioPlayer` hook.  `openHandles` is the multiset of
native audio handles currently open in the platform audio engine
(identified by the uri they were created from) — ghost state recording the
resource footprint; `soundRef` is the hook's `soundRef.current` (the handle
it holds, by uri), `currentId` and `playbackState` the two state cells. -/
structure AudioState where
  openHandles : List String
  soundRef : Option String
  currentId : Option String
  playbackState : Option PlayState
deriving DecidableEq, Repr

/-- `stop` from `useAudioPlayer`: early return when no handle is held;
otherwise stop (a throw there is swallowed), unload the handle, clear the
ref and both state cells.  `unloadAsync` is assumed to succeed (the source
awaits it outside any try/catch). -/
def stop (a : AudioState) : AudioState :=
  match a.soundRef with
  | none => a
  | some h =>
    { openHandles := a.openHandles.erase h
      soundRef := none
      currentId := none
      playbackState := none }

/-- `play` from `useAudioPlayer`: first `await stop()`, then
`Audio.Sound.createAsync({uri}, {shouldPlay: true})`.  `createOk` is the
outcome of that platform call; when it throws, the exception propagates to
the caller (`Except.error`) with the player left in the stopped state. -/
def play (createOk : Bool) (sound : SoundItem) (a : AudioState) :
    Except AudioState AudioState :=
  let a := stop a
  if createOk then
    .ok { openHandles := sound.uri :: a.openHandles
          soundRef := some sound.uri
          currentId := some sound.id
          playbackState := some .playing }
  else
    .error a

/-- The player state after a `play` call, whether or not it threw. -/
def playerAfter : Except AudioState AudioState → AudioState
  | .ok a => a
  | .error a => a

/-- Well-formedness of the player state, true of every state the hook can
reach: the open native handles are exactly the one held by `soundRef` (at
most one), and when no handle is held both state cells are clear. -/
def AudioWF (a : AudioState) : Prop :=
  a.openHandles = a.soundRef.toList ∧
    (a.soundRef = none → a.currentId = none ∧ a.playbackState = none)

instance : DecidablePred AudioWF := fun a => by
  unfold AudioWF
  infer_instance

/-! ## Application state and event handlers (`App`) -/

/-- The `useState` cells of `App` relevant to the core, plus the audio
player state.  `emitted` is a ghost log: every status string passed to
`setMessage`, in call order (React keeps only the latest, `message`). -/
structure AppState where
  sounds : List SoundItem
  mappings : Mapping
  lastTrigger : Option String
  message : Option String
  emitted : List String
  audio : AudioState
deriving DecidableEq, Repr

/-- `setMessage(m)`: record the current status string (and log it). -/
def setMessage (m : String) (st : AppState) : AppState :=
  { st with message := some m, emitted := st.emitted ++ [m] }

/-- The unmapped-trigger outcome inside `onTrigger`: status
"No sound mapped yet." then `await audio.stop()`. -/
def noSoundMapped (st : AppState) : AppState :=
  let st := setMessage "No sound mapped yet." st
  { st with audio := stop st.audio }

/-- `onTrigger(trigger, isAuto)` from `App`: record the key as the last
fired trigger, look the key up in the mapping table; a falsy value
(absent key, `undefined` value, or empty string) silences playback; a
dangling sound id only reports; otherwise report and play, converting a
play failure into the "Could not play audio." status (never rethrown). -/
def onTrigger (createOk : Bool) (trigger : Trigger) (isAuto : Bool)
    (st : AppState) : AppState :=
  let key := triggerKey trigger
  let st := { st with lastTrigger := some key }
  match mapLookup st.mappings key with
  | none => noSoundMapped st
  | some sid =>
    if sid == "" then
      noSoundMapped st
    else
      match st.sounds.find? (fun s => s.id == sid) with
      | none => setMessage "Mapped sound is missing." st
      | some sound =>
        let st := setMessage
          ((if isAuto then "Simulated" else "Playing") ++ ": " ++ sound.name) st
        match play createOk sound st.audio with
        | .ok a => { st with audio := a }
        | .error a => setMessage "Could not play audio." { st with audio := a }

/-- `handleDelete(id)`, confirmed branch: drop the catalog entry with that
id and every mapping entry whose value strictly equals the id
(`next[key] === id`; an `undefined` value never equals a string id).  The
backing-file removal is an external, idempotent side effect. -/
def handleDelete (id : String) (st : AppState) : AppState :=
  { st with
      sounds := st.sounds.filter (fun s => !(s.id == id))
      mappings := st.mappings.filter (fun e => !(e.2 == some id)) }

/-- `handleSetMapping(key, soundId)`, i.e. `{ ...prev, [key]: soundId }`:
an existing key keeps its position and gets the new value (possibly
`undefined`); a new key is appended at the end. -/
def handleSetMapping (key : String) (soundId : Option String) (m : Mapping) :
    Mapping :=
  if m.any (fun e => e.1 == key) then
    m.map (fun e => if e.1 == key then (key, soundId) else e)
  else
    m ++ [(key, soundId)]

/-! ## Import (`handleImport`) -/

/-- The asset the document picker returned: its `name` may be absent. -/
structure PickedFile where
  name : Option String
  uri : String
deriving DecidableEq, Repr

/-- Outcome of `DocumentPicker.getDocumentAsync`. -/
inductive PickOutcome
  | canceled
  | empty
  | picked (file : PickedFile)
deriving DecidableEq, Repr

/-- Outcome of `FileSystem.copyAsync` followed by `getInfoAsync`:
either the copy threw (with the error message shown to the user), or it
completed and the existence check reported `found`. -/
inductive CopyOutcome
  | threw (msg : String)
  | copied (found : Bool)
deriving DecidableEq, Repr

/-- JavaScript `str.split('.')` on the character list: always a non-empty
list of dot-free segments; `"".split('.')` is `[""]`. -/
def splitDotChars : List Char → List (List Char)
  | [] => [[]]
  | c :: rest =>
    let r := splitDotChars rest
    if c == '.' then [] :: r
    else
      match r with
      | [] => [[c]]
      | h :: t => (c :: h) :: t

/-- JavaScript `str.split('.')`. -/
def splitDot (s : String) : List String :=
  (splitDotChars s.data).map String.mk

/-- The extension component of the destination file name:
`file.name?.split('.').pop() ?? 'm4a'`.  `split('.')` always yields a
non-empty array, whose last element is the text after the last dot — the
whole name when there is no dot; `'m4a'` only when `name` is `undefined`. -/
def importExtension : Option String → String
  | none => "m4a"
  | some n => (splitDot n).getLastD "m4a"

/-- The regular-expression replace `name.replace(/\.[^/.]+$/, '')`: strip a
final ".ext" where ext is non-empty and free of dots and slashes. -/
def stripExtension (s : String) : String :=
  let rev := s.data.reverse
  let ext := rev.takeWhile (fun c => !(c == '.') && !(c == '/'))
  match rev.drop ext.length with
  | '.' :: rest => if ext.isEmpty then s else String.mk rest.reverse
  | _ => s

/-- The display name of an imported file:
`file.name?.replace(/\.[^/.]+$/, '') || 'New sound'` — the stripped name,
falling back to "New sound" when it is empty or the name is absent. -/
def deriveName : Option String → String
  | none => "New sound"
  | some n =>
    let base := stripExtension n
    if base == "" then "New sound" else base

/-- The destination path of an imported file:
`` `${FileSystem.documentDirectory}audio-${Date.now()}.${extension}` ``. -/
def importDestination (documentDirectory : String) (now : Nat)
    (name : Option String) : String :=
  documentDirectory ++ "audio-" ++ toString now ++ "." ++ importExtension name

/-- `handleImport` from `App`: handle picker cancel / empty result, build
the destination path, copy the file (a throw is caught and reported), check
the copy exists, then append the new catalog entry and report.  `now` is
`Date.now()` and `newId` the fresh `randomId()`. -/
def handleImport (pick : PickOutcome) (copy : CopyOutcome)
    (documentDirectory : String) (now : Nat) (newId : String)
    (st : AppState) : AppState :=
  match pick with
  | .canceled => setMessage "Import canceled." st
  | .empty => setMessage "No file selected (picker returned empty)." st
  | .picked file =>
    let destination := importDestination documentDirectory now file.name
    match copy with
    | .threw msg => setMessage ("Import failed. " ++ msg) st
    | .copied found =>
      if !found then
        setMessage "Import failed: copied file not found." st
      else
        let newSound : SoundItem :=
          { id := newId, name := deriveName file.name, uri := destination }
        let st := { st with sounds := st.sounds ++ [newSound] }
        setMessage ("Imported: " ++ newSound.name) st

/-- Modelled from the spec (§6, claim C9's reading): the "original
extension" of a picked file — the text after the last dot when the name
contains a dot, and `"m4a"` when the file has no extension or no name. -/
def specExtension : Option String → String
  | none => "m4a"
  | some n =>
    if (splitDot n).length ≥ 2 then (splitDot n).getLastD "m4a"
    else "m4a"

/-! ## Helper lemmas -/

/-- Serializing then parsing a mapping whose entries are all defined
reproduces it entry for entry. -/
theorem loadMappings_saveMappings (m : Mapping) (hm : ∀ e ∈ m, e.2.isSome) :
    loadMappings (saveMappings m) = m := by
  induction m with
  | nil => rfl
  | cons e rest ih =>
    obtain ⟨k, ov⟩ := e
    obtain ⟨v, hv⟩ := Option.isSome_iff_exists.mp (hm (k, ov) (List.mem_cons_self _ _))
    subst hv
    have hrest : loadMappings (saveMappings rest) = rest :=
      ih (fun x hx => hm x (List.mem_cons_of_mem _ hx))
    simpa [loadMappings, saveMappings, serializeMapping] using hrest

/-- On a well-formed player state, `stop` always lands in the fully cleared
state: no open handle, no held ref, both cells clear. -/
theorem stop_spec (a : AudioState) (h : AudioWF a) :
    stop a = ⟨[], none, none, none⟩ := by
  obtain ⟨h1, h2⟩ := h
  cases ha : a.soundRef with
  | none =>
    obtain ⟨hc, hp⟩ := h2 ha
    have ho : a.openHandles = [] := by rw [h1, ha]; rfl
    cases a
    simp_all [stop]
  | some v =>
    have ho : a.openHandles = [v] := by rw [h1, ha]; rfl
    simp [stop, ha, ho]

/-- On a well-formed player state, `play` either succeeds into the state
holding exactly the new sound's handle, or throws leaving the cleared
state. -/
theorem play_spec (a : AudioState) (h : AudioWF a) (c : Bool) (s : SoundItem) :
    play c s a =
      if c then .ok ⟨[s.uri], some s.uri, some s.id, some .playing⟩
      else .error ⟨[], none, none, none⟩ := by
  unfold play
  rw [stop_spec a h]

/-- `play` preserves player well-formedness. -/
theorem playerAfter_play_wf (a : AudioState) (h : AudioWF a) (c : Bool)
    (s : SoundItem) : AudioWF (playerAfter (play c s a)) := by
  rw [play_spec a h]
  cases c <;> simp [playerAfter, AudioWF, Option.toList]

/-- `takeWhile` swallows a prefix on which the predicate holds and stops at
the first failing element. -/
theorem takeWhile_append_cons {α} (p : α → Bool) (l1 : List α) (a : α)
    (l2 : List α) (h1 : ∀ c ∈ l1, p c = true) (ha : p a = false) :
    (l1 ++ a :: l2).takeWhile p = l1 := by
  induction l1 with
  | nil => simp [List.takeWhile_cons, ha]
  | cons c cs ih =>
    have hc : p c = true := h1 c (List.mem_cons_self _ _)
    simp [List.takeWhile_cons, hc,
      ih (fun x hx => h1 x (List.mem_cons_of_mem _ hx))]

/-- The regex model strips exactly a final dot-free, slash-free, non-empty
extension. -/
theorem stripExtension_append (base ext : String) (hne : ext ≠ "")
    (h : ∀ ch ∈ ext.data, ch ≠ '.' ∧ ch ≠ '/') :
    stripExtension (base ++ "." ++ ext) = base := by
  have hdata : (base ++ "." ++ ext).data = base.data ++ '.' :: ext.data := by
    simp [String.data_append]
  have hrev : (base.data ++ '.' :: ext.data).reverse
      = ext.data.reverse ++ '.' :: base.data.reverse := by
    simp
  have htake : (ext.data.reverse ++ '.' :: base.data.reverse).takeWhile
      (fun c => !(c == '.') && !(c == '/')) = ext.data.reverse := by
    apply takeWhile_append_cons
    · intro ch hch
      have hch' := h ch (List.mem_reverse.mp hch)
      simp [hch'.1, hch'.2]
    · rfl
  have hdrop : (ext.data.reverse ++ '.' :: base.data.reverse).drop
      ext.data.reverse.length = '.' :: base.data.reverse :=
    List.drop_left _ _
  have hextne : ext.data.reverse.isEmpty = false := by
    cases ext with
    | mk d =>
      cases d with
      | nil => exact absurd rfl hne
      | cons c cs => simp
  simp only [stripExtension, hdata, hrev, htake, hdrop, hextne]
  simp

/-- `splitDotChars` never returns the empty list. -/
theorem splitDotChars_ne_nil (l : List Char) : splitDotChars l ≠ [] := by
  induction l with
  | nil => simp [splitDotChars]
  | cons c rest ih =>
    simp only [splitDotChars]
    by_cases hc : (c == '.') = true
    · simp [hc]
    · rcases hr : splitDotChars rest with _ | ⟨h1, t⟩
      · exact absurd hr ih
      · simp [hc, hr]

/-- A dot-free character list splits into a single segment: itself. -/
theorem splitDotChars_dotfree (l : List Char) (h : ∀ c ∈ l, c ≠ '.') :
    splitDotChars l = [l] := by
  induction l with
  | nil => rfl
  | cons c rest ih =>
    have hc : (c == '.') = false := by
      simpa using h c (List.mem_cons_self _ _)
    have hr := ih (fun x hx => h x (List.mem_cons_of_mem _ hx))
    simp [splitDotChars, hc, hr]

/-- Splitting a list that ends in a dot followed by a dot-free tail yields
at least two segments and the tail as the last one. -/
theorem splitDotChars_last_after_dot (l1 l2 : List Char)
    (h : ∀ c ∈ l2, c ≠ '.') :
    2 ≤ (splitDotChars (l1 ++ '.' :: l2)).length ∧
    (splitDotChars (l1 ++ '.' :: l2)).getLast? = some l2 := by
  induction l1 with
  | nil =>
    rw [List.nil_append]
    have hsplit : splitDotChars ('.' :: l2) = [] :: [l2] := by
      simp [splitDotChars, splitDotChars_dotfree l2 h]
    rw [hsplit]
    exact ⟨by simp, by simp⟩
  | cons c rest ih =>
    obtain ⟨ihlen, ihlast⟩ := ih
    rcases hr : splitDotChars (rest ++ '.' :: l2) with _ | ⟨e1, t⟩
    · exact absurd hr (splitDotChars_ne_nil _)
    rcases t with _ | ⟨e2, t2⟩
    · rw [hr] at ihlen
      simp at ihlen
    rw [hr] at ihlast
    have hlast2 : (e2 :: t2).getLast? = some l2 := by
      simpa [List.getLast?_cons_cons] using ihlast
    constructor
    · by_cases hc : (c == '.') = true <;>
        simp [splitDotChars, hc, hr]
    · by_cases hc : (c == '.') = true <;>
        simp [splitDotChars, hc, hr, List.getLast?_cons_cons, hlast2]

/-- `split('.').pop()` on a name of the form `base.ext` (dot-free ext)
returns `ext`. -/
theorem importExtension_after_dot (base ext : String)
    (h : ∀ ch ∈ ext.data, ch ≠ '.') :
    importExtension (some (base ++ "." ++ ext)) = ext := by
  have hdata : (base ++ "." ++ ext).data = base.data ++ '.' :: ext.data := by
    simp [String.data_append]
  have hl := splitDotChars_last_after_dot base.data ext.data h
  show (List.map String.mk
    (splitDotChars (base ++ "." ++ ext).data)).getLastD "m4a" = ext
  rw [hdata, List.getLastD_eq_getLast?, List.getLast?_map, hl.2]
  rfl

/-- `split('.').pop()` on a dot-free name returns the whole name. -/
theorem importExtension_dotfree (n : String) (h : ∀ ch ∈ n.data, ch ≠ '.') :
    importExtension (some n) = n := by
  show (List.map String.mk (splitDotChars n.data)).getLastD "m4a" = n
  rw [splitDotChars_dotfree n.data h]
  rfl

/-- `find?` skips a prefix on which it fails. -/
theorem find_append_none {α} (p : α → Bool) (l1 l2 : List α)
    (h : l1.find? p = none) : (l1 ++ l2).find? p = l2.find? p := by
  induction l1 with
  | nil => rfl
  | cons a l ih =>
    cases hpa : p a with
    | true => rw [List.find?_cons_of_pos _ hpa] at h; exact absurd h (by simp)
    | false =>
      rw [List.find?_cons_of_neg _ (by simp [hpa])] at h
      simpa [List.find?_cons_of_neg, hpa] using ih h

/-- `find?` keeps a hit found in the prefix. -/
theorem find_append_some {α} (p : α → Bool) (l1 l2 : List α) (x : α)
    (h : l1.find? p = some x) : (l1 ++ l2).find? p = some x := by
  induction l1 with
  | nil => simp at h
  | cons a l ih =>
    cases hpa : p a with
    | true =>
      rw [List.find?_cons_of_pos _ hpa] at h
      rw [List.cons_append, List.find?_cons_of_pos _ hpa]
      exact h
    | false =>
      rw [List.find?_cons_of_neg _ (by simp [hpa])] at h
      rw [List.cons_append, List.find?_cons_of_neg _ (by simp [hpa])]
      exact ih h

/-- In the updated-in-place branch of `handleSetMapping`, looking up the
updated key finds the new value. -/
theorem find_map_update (m : Mapping) (k : String) (v : Option String)
    (h : m.any (fun e => e.1 == k) = true) :
    ((m.map (fun e => if e.1 == k then (k, v) else e)).find?
      (fun e => e.1 == k)) = some (k, v) := by
  induction m with
  | nil => simp at h
  | cons e rest ih =>
    simp only [List.map_cons]
    by_cases he : (e.1 == k) = true
    · rw [if_pos he]
      simp [List.find?_cons]
    · have he' : (e.1 == k) = false := by simpa using he
      rw [if_neg he]
      simp only [List.find?_cons, he']
      exact ih (by simpa [he'] using h)

/-- In the updated-in-place branch of `handleSetMapping`, looking up any
other key is unchanged. -/
theorem find_map_update_other (m : Mapping) (k : String) (v : Option String)
    (k' : String) (hne : k' ≠ k) :
    ((m.map (fun e => if e.1 == k then (k, v) else e)).find?
      (fun e => e.1 == k')) = m.find? (fun e => e.1 == k') := by
  have hkk' : ((k : String) == k') = false :=
    beq_eq_false_iff_ne.mpr (fun hh => hne hh.symm)
  induction m with
  | nil => rfl
  | cons e rest ih =>
    simp only [List.map_cons]
    by_cases he : (e.1 == k) = true
    · have hek : e.1 = k := by simpa using he
      have h2 : (e.1 == k') = false := by rw [hek]; exact hkk'
      rw [if_pos he]
      simp only [List.find?_cons, h2, hkk']
      exact ih
    · rw [if_neg he]
      simp only [List.find?_cons]
      cases hpe : (e.1 == k') with
      | true => rfl
      | false => exact ih

/-- After `handleSetMapping`, the written key's entry is present and holds
exactly the written value. -/
theorem handleSetMapping_find_self (m : Mapping) (k : String)
    (v : Option String) :
    ((handleSetMapping k v m).find? (fun e => e.1 == k)) = some (k, v) := by
  unfold handleSetMapping
  by_cases h : m.any (fun e => e.1 == k) = true
  · rw [if_pos h]
    exact find_map_update m k v h
  · rw [if_neg h]
    have hnone : m.find? (fun e => e.1 == k) = none := by
      rw [List.find?_eq_none]
      intro x hx hpx
      exact h (List.any_eq_true.mpr ⟨x, hx, hpx⟩)
    rw [find_append_none _ _ _ hnone]
    simp

/-- After `handleSetMapping`, every other key's entry is untouched. -/
theorem handleSetMapping_find_other (m : Mapping) (k : String)
    (v : Option String) (k' : String) (hne : k' ≠ k) :
    ((handleSetMapping k v m).find? (fun e => e.1 == k'))
      = m.find? (fun e => e.1 == k') := by
  unfold handleSetMapping
  by_cases h : m.any (fun e => e.1 == k) = true
  · rw [if_pos h]
    exact find_map_update_other m k v k' hne
  · rw [if_neg h]
    cases hf : m.find? (fun e => e.1 == k') with
    | some e => exact find_append_some _ _ _ _ hf
    | none =>
      rw [find_append_none _ _ _ hf]
      have : ((k : String) == k') = false :=
        beq_eq_false_iff_ne.mpr (fun hh => hne hh.symm)
      simp [this]

/-- Clearing a key via `handleSetMapping key none` leaves every entry under
that key valueless. -/
theorem handleSetMapping_none_val (m : Mapping) (k : String) :
    ∀ e ∈ handleSetMapping k none m, e.1 = k → e.2 = none := by
  unfold handleSetMapping
  by_cases h : m.any (fun e => e.1 == k) = true
  · rw [if_pos h]
    intro e he hek
    obtain ⟨a, ha, hae⟩ := List.mem_map.mp he
    by_cases hk : (a.1 == k) = true
    · rw [if_pos hk] at hae
      rw [← hae]
    · rw [if_neg hk] at hae
      subst hae
      exact absurd (beq_iff_eq.mpr hek) (by simpa using hk)
  · rw [if_neg h]
    intro e he hek
    rcases List.mem_append.mp he with hm | hsing
    · exact absurd (List.any_eq_true.mpr
        ⟨e, hm, (beq_iff_eq.mpr hek : (e.1 == k) = true)⟩) h
    · have : e = (k, none) := by simpa using hsing
      rw [this]

/-- A mapping all of whose entries under key `k` are valueless serializes,
then parses, to a mapping with no entry under `k` at all. -/
theorem roundtrip_drops_valueless (m : Mapping) (k : String)
    (h : ∀ e ∈ m, e.1 = k → e.2 = none) :
    (loadMappings (saveMappings m)).find? (fun e => e.1 == k) = none := by
  rw [List.find?_eq_none]
  intro x hx hpx
  simp only [loadMappings, saveMappings, serializeMapping, List.mem_map,
    List.mem_filterMap] at hx
  obtain ⟨p, ⟨e, hem, hfe⟩, hgx⟩ := hx
  obtain ⟨v, hv, hpv⟩ := Option.map_eq_some'.mp hfe
  have hx1 : x.1 = e.1 := by rw [← hgx, ← hpv]
  have hek : e.1 = k := by
    have := beq_iff_eq.mp hpx
    rw [hx1] at this
    exact this
  have := h e hem hek
  rw [this] at hv
  exact Option.noConfusion hv

end AudioFeed

namespace AudioFeed

/-! ## Claim theorems -/

/-- C8: a persisted document that is missing or fails to decode as JSON
loads as the empty list (sounds) or the empty mapping (mappings); the load
functions are total — every stored cell, corrupt ones included, yields a
value rather than an error. -/
theorem claim_C8_corrupt_persisted_state_defaults_empty :
    loadSounds .missing = [] ∧ loadSounds .malformed = [] ∧
    loadMappings .missing = [] ∧ loadMappings .malformed = [] ∧
    (∀ d : StoredSounds, loadSounds d = [] ∨
      ∃ v, d = .valid v ∧ loadSounds d = v) ∧
    (∀ d : StoredMappings, loadMappings d = [] ∨
      ∃ v, d = .valid v ∧ loadMappings d = v.map (fun e => (e.1, some e.2))) := by
  refine ⟨rfl, rfl, rfl, rfl, ?_, ?_⟩
  · intro d
    cases d with
    | missing => exact Or.inl rfl
    | malformed => exact Or.inl rfl
    | valid v => exact Or.inr ⟨v, rfl, rfl⟩
  · intro d
    cases d with
    | missing => exact Or.inl rfl
    | malformed => exact Or.inl rfl
    | valid v => exact Or.inr ⟨v, rfl, rfl⟩

/-- C7: saving any catalog and any mapping whose entries are all present
with defined values, then loading, reproduces both documents exactly
(ids, names, uris, order, and every mapping entry). -/
theorem claim_C7_save_load_roundtrip (sounds : List SoundItem) (m : Mapping)
    (hm : ∀ e ∈ m, e.2.isSome) :
    loadSounds (saveSounds sounds) = sounds ∧
    loadMappings (saveMappings m) = m :=
  ⟨rfl, loadMappings_saveMappings m hm⟩

/-- Witness for C7 at a concrete catalog and mapping. -/
theorem claim_C7_save_load_roundtrip_witness :
    loadSounds (saveSounds [⟨"x1", "clap", "file://a"⟩]) = [⟨"x1", "clap", "file://a"⟩] ∧
    loadMappings (saveMappings [("b1-short", some "x1"), ("b2-long", some "x2")])
      = [("b1-short", some "x1"), ("b2-long", some "x2")] :=
  claim_C7_save_load_roundtrip [⟨"x1", "clap", "file://a"⟩]
    [("b1-short", some "x1"), ("b2-long", some "x2")] (by decide)

/-- C4: deleting a sound removes its catalog entry and exactly the mapping
entries whose value is that id: no surviving entry references the deleted
id, every other catalog and mapping entry survives, nothing is added
(the new mapping table is a sublist of the old), and deleting again leaves
the mapping table unchanged (idempotent cleanup). -/
theorem claim_C4_delete_referential_integrity (st : AppState) (id : String) :
    (∀ s ∈ (handleDelete id st).sounds, s.id ≠ id) ∧
    (∀ s ∈ st.sounds, s.id ≠ id → s ∈ (handleDelete id st).sounds) ∧
    (∀ e ∈ (handleDelete id st).mappings, e.2 ≠ some id) ∧
    (∀ e ∈ st.mappings, e.2 ≠ some id → e ∈ (handleDelete id st).mappings) ∧
    (handleDelete id st).mappings.Sublist st.mappings ∧
    (handleDelete id (handleDelete id st)).mappings = (handleDelete id st).mappings := by
  refine ⟨?_, ?_, ?_, ?_, ?_, ?_⟩
  · intro s hs
    have := (List.mem_filter.mp hs).2
    simpa using this
  · intro s hs hne
    exact List.mem_filter.mpr ⟨hs, by simpa using hne⟩
  · intro e he
    have := (List.mem_filter.mp he).2
    simpa using this
  · intro e he hne
    exact List.mem_filter.mpr ⟨he, by simpa using hne⟩
  · exact List.filter_sublist _
  · simp [handleDelete, List.filter_filter]

/-- C5: from any well-formed player state, a `play` request keeps the
state well-formed with at most one open native handle (release happens
before acquire inside `play`); after any first `play` followed by a second
successful `play`, exactly one handle is open and it is the second sound's
uri, which is also the handle the hook holds. -/
theorem claim_C5_single_open_handle (a : AudioState) (hwf : AudioWF a) :
    (∀ c s, AudioWF (playerAfter (play c s a)) ∧
      (playerAfter (play c s a)).openHandles.length ≤ 1) ∧
    (∀ c1 s1 s2,
      (playerAfter (play true s2 (playerAfter (play c1 s1 a)))).openHandles
        = [s2.uri] ∧
      (playerAfter (play true s2 (playerAfter (play c1 s1 a)))).soundRef
        = some s2.uri) := by
  constructor
  · intro c s
    refine ⟨playerAfter_play_wf a hwf c s, ?_⟩
    rw [play_spec a hwf]
    cases c <;> simp [playerAfter]
  · intro c1 s1 s2
    have hwf1 : AudioWF (playerAfter (play c1 s1 a)) :=
      playerAfter_play_wf a hwf c1 s1
    rw [play_spec _ hwf1]
    simp [playerAfter]

/-- Witness for C5: load-then-load starting from a playing state. -/
theorem claim_C5_single_open_handle_witness :
    AudioWF ⟨["file://z"], some "file://z", some "z", some .playing⟩ ∧
    (playerAfter (play true ⟨"x2", "b", "file://b"⟩
        (playerAfter (play true ⟨"x1", "a", "file://a"⟩
          ⟨["file://z"], some "file://z", some "z", some .playing⟩)))).openHandles
      = ["file://b"] := by
  have h := claim_C5_single_open_handle
    ⟨["file://z"], some "file://z", some "z", some .playing⟩ (by decide)
  exact ⟨by decide, (h.2 true ⟨"x1", "a", "file://a"⟩ ⟨"x2", "b", "file://b"⟩).1⟩

/-- C1: firing a trigger whose key maps to a resolvable catalog entry
emits "Simulated: name" (simulated origin) or "Playing: name" (user
origin) and requests load-and-play of that sound — on success the player
holds the sound's uri, id, and the playing status; if the load/play call
throws, the status instead ends up "Could not play audio." and the failure
is swallowed (`onTrigger` still returns a state). -/
theorem claim_C1_mapped_trigger_plays (st : AppState) (t : Trigger)
    (isAuto : Bool) (sid : String) (sound : SoundItem)
    (h1 : mapLookup st.mappings (triggerKey t) = some sid)
    (h2 : sid ≠ "")
    (h3 : st.sounds.find? (fun s => s.id == sid) = some sound) :
    (∀ c, ((if isAuto then "Simulated" else "Playing") ++ ": " ++ sound.name)
        ∈ (onTrigger c t isAuto st).emitted) ∧
    (onTrigger true t isAuto st).message
      = some ((if isAuto then "Simulated" else "Playing") ++ ": " ++ sound.name) ∧
    (onTrigger true t isAuto st).audio.soundRef = some sound.uri ∧
    (onTrigger true t isAuto st).audio.currentId = some sound.id ∧
    (onTrigger true t isAuto st).audio.playbackState = some PlayState.playing ∧
    (onTrigger false t isAuto st).message = some "Could not play audio." := by
  have h2' : (sid == "") = false := beq_eq_false_iff_ne.mpr h2
  refine ⟨fun c => ?_, ?_, ?_, ?_, ?_, ?_⟩
  · cases c <;> simp [onTrigger, setMessage, play, h1, h2', h3]
  all_goals simp [onTrigger, setMessage, play, h1, h2', h3]

/-- Witness for C1: one sound, one mapping, fire the mapped trigger as a
user trigger. -/
theorem claim_C1_mapped_trigger_plays_witness :
    mapLookup [("b1-short", some "x1")] (triggerKey ⟨"b1", .short⟩) = some "x1" ∧
    (onTrigger true ⟨"b1", .short⟩ false
      ⟨[⟨"x1", "clap", "file://a"⟩], [("b1-short", some "x1")],
        none, none, [], ⟨[], none, none, none⟩⟩).message = some "Playing: clap" := by
  have h := claim_C1_mapped_trigger_plays
    ⟨[⟨"x1", "clap", "file://a"⟩], [("b1-short", some "x1")],
      none, none, [], ⟨[], none, none, none⟩⟩
    ⟨"b1", .short⟩ false "x1" ⟨"x1", "clap", "file://a"⟩
    (by decide) (by decide) (by decide)
  exact ⟨by decide, h.2.1⟩

/-- C2: a fired trigger whose key is unmapped — absent from the table, or
present with an `undefined` or empty value — reports "No sound mapped
yet." and silences playback: afterwards no handle is held or open and both
playback cells are clear, whatever was playing before. -/
theorem claim_C2_unmapped_trigger_silences (st : AppState) (t : Trigger)
    (c isAuto : Bool) (hwf : AudioWF st.audio)
    (h : mapLookup st.mappings (triggerKey t) = none ∨
        mapLookup st.mappings (triggerKey t) = some "") :
    (onTrigger c t isAuto st).message = some "No sound mapped yet." ∧
    (onTrigger c t isAuto st).audio.currentId = none ∧
    (onTrigger c t isAuto st).audio.playbackState = none ∧
    (onTrigger c t isAuto st).audio.soundRef = none ∧
    (onTrigger c t isAuto st).audio.openHandles = [] := by
  have hstop := stop_spec st.audio hwf
  rcases h with h | h <;>
    simp [onTrigger, noSoundMapped, setMessage, h, hstop]

/-- Witness for C2: a trigger with no mapping entry fired while another
sound is playing. -/
theorem claim_C2_unmapped_trigger_silences_witness :
    AudioWF ⟨["file://a"], some "file://a", some "x1", some .playing⟩ ∧
    (onTrigger true ⟨"b1", .long⟩ true
      ⟨[⟨"x1", "clap", "file://a"⟩], [("b1-short", some "x1")], none, none, [],
        ⟨["file://a"], some "file://a", some "x1", some .playing⟩⟩).message
      = some "No sound mapped yet." ∧
    (onTrigger true ⟨"b1", .long⟩ true
      ⟨[⟨"x1", "clap", "file://a"⟩], [("b1-short", some "x1")], none, none, [],
        ⟨["file://a"], some "file://a", some "x1", some .playing⟩⟩).audio.currentId
      = none := by
  have h := claim_C2_unmapped_trigger_silences
    ⟨[⟨"x1", "clap", "file://a"⟩], [("b1-short", some "x1")], none, none, [],
      ⟨["file://a"], some "file://a", some "x1", some .playing⟩⟩
    ⟨"b1", .long⟩ true true (by decide) (Or.inl (by decide))
  exact ⟨by decide, h.1, h.2.1⟩

/-- C3: a fired trigger mapped to a sound id with no catalog entry only
reports "Mapped sound is missing.": the entire resulting state equals the
old one except for the last-fired key and the status message — catalog,
mapping table, and every playback field untouched. -/
theorem claim_C3_dangling_mapping_is_frame (st : AppState) (t : Trigger)
    (c isAuto : Bool) (sid : String)
    (h1 : mapLookup st.mappings (triggerKey t) = some sid)
    (h2 : sid ≠ "")
    (h3 : st.sounds.find? (fun s => s.id == sid) = none) :
    onTrigger c t isAuto st =
      { st with lastTrigger := some (triggerKey t),
                message := some "Mapped sound is missing.",
                emitted := st.emitted ++ ["Mapped sound is missing."] } := by
  have h2' : (sid == "") = false := beq_eq_false_iff_ne.mpr h2
  simp [onTrigger, setMessage, h1, h2', h3]

/-- Witness for C3: a mapping entry pointing at a deleted id, fired while
something is playing; only the last trigger and message change. -/
theorem claim_C3_dangling_mapping_is_frame_witness :
    mapLookup [("b1-short", some "gone")] (triggerKey ⟨"b1", .short⟩) = some "gone" ∧
    onTrigger true ⟨"b1", .short⟩ false
      ⟨[⟨"x1", "clap", "file://a"⟩], [("b1-short", some "gone")], none, none, [],
        ⟨["file://a"], some "file://a", some "x1", some .playing⟩⟩ =
      ⟨[⟨"x1", "clap", "file://a"⟩], [("b1-short", some "gone")],
        some "b1-short", some "Mapped sound is missing.",
        ["Mapped sound is missing."],
        ⟨["file://a"], some "file://a", some "x1", some .playing⟩⟩ := by
  have h := claim_C3_dangling_mapping_is_frame
    ⟨[⟨"x1", "clap", "file://a"⟩], [("b1-short", some "gone")], none, none, [],
      ⟨["file://a"], some "file://a", some "x1", some .playing⟩⟩
    ⟨"b1", .short⟩ true false "gone" (by decide) (by decide) (by decide)
  refine ⟨by decide, ?_⟩
  rw [h]
  decide

/-- Witness for C4 at a concrete state: a two-sound catalog with two
mappings to the deleted id and one to another id. -/
theorem claim_C4_delete_referential_integrity_witness :
    (∀ s ∈ (handleDelete "x1" ⟨[⟨"x1", "a", "u1"⟩, ⟨"x2", "b", "u2"⟩],
        [("k1", some "x1"), ("k2", some "x2"), ("k3", some "x1")],
        none, none, [], ⟨[], none, none, none⟩⟩).sounds, s.id ≠ "x1") ∧
    (⟨"x2", "b", "u2"⟩ : SoundItem) ∈ (handleDelete "x1"
      (⟨[⟨"x1", "a", "u1"⟩, ⟨"x2", "b", "u2"⟩],
        [("k1", some "x1"), ("k2", some "x2"), ("k3", some "x1")],
        none, none, [], ⟨[], none, none, none⟩⟩ : AppState)).sounds ∧
    ("k2", some "x2") ∈ (handleDelete "x1"
      (⟨[⟨"x1", "a", "u1"⟩, ⟨"x2", "b", "u2"⟩],
        [("k1", some "x1"), ("k2", some "x2"), ("k3", some "x1")],
        none, none, [], ⟨[], none, none, none⟩⟩ : AppState)).mappings ∧
    (∀ e ∈ (handleDelete "x1"
      (⟨[⟨"x1", "a", "u1"⟩, ⟨"x2", "b", "u2"⟩],
        [("k1", some "x1"), ("k2", some "x2"), ("k3", some "x1")],
        none, none, [], ⟨[], none, none, none⟩⟩ : AppState)).mappings, e.2 ≠ some "x1") := by
  have h := claim_C4_delete_referential_integrity
    ⟨[⟨"x1", "a", "u1"⟩, ⟨"x2", "b", "u2"⟩],
      [("k1", some "x1"), ("k2", some "x2"), ("k3", some "x1")],
      none, none, [], ⟨[], none, none, none⟩⟩ "x1"
  exact ⟨h.1, h.2.1 _ (by decide) (by decide), h.2.2.2.1 _ (by decide) (by decide), h.2.2.1⟩

/-- C6: a successful import appends exactly one catalog entry at the end,
whose display name is the picked file's name with its final extension
stripped — "voice.m4a" imports as "voice" — falling back to "New sound"
when the stripped name is empty (".m4a") or the picker reports no name;
stripping removes precisely a final ".ext" with ext non-empty, dot-free
and slash-free. -/
theorem claim_C6_import_display_name (st : AppState) (dir : String)
    (now : Nat) (newId : String) (file : PickedFile) :
    (handleImport (.picked file) (.copied true) dir now newId st).sounds
      = st.sounds ++
          [⟨newId, deriveName file.name, importDestination dir now file.name⟩] ∧
    deriveName (some "voice.m4a") = "voice" ∧
    deriveName (some ".m4a") = "New sound" ∧
    deriveName none = "New sound" ∧
    (∀ base ext : String, ext ≠ "" →
      (∀ ch ∈ ext.data, ch ≠ '.' ∧ ch ≠ '/') →
      stripExtension (base ++ "." ++ ext) = base) := by
  refine ⟨?_, by decide, by decide, rfl,
    fun base ext h1 h2 => stripExtension_append base ext h1 h2⟩
  simp [handleImport, setMessage]

/-- Witness for C6: importing "voice.m4a" into an empty catalog. -/
theorem claim_C6_import_display_name_witness :
    (handleImport (.picked ⟨some "voice.m4a", "content://pick"⟩) (.copied true)
        "dir/" 7 "id1" ⟨[], [], none, none, [], ⟨[], none, none, none⟩⟩).sounds
      = [⟨"id1", "voice", "dir/audio-7.m4a"⟩] ∧
    ("m4a" : String) ≠ "" ∧
    stripExtension ("voice" ++ "." ++ "m4a") = "voice" := by
  have h := claim_C6_import_display_name
    ⟨[], [], none, none, [], ⟨[], none, none, none⟩⟩ "dir/" 7 "id1"
    ⟨some "voice.m4a", "content://pick"⟩
  refine ⟨?_, by decide, h.2.2.2.2 "voice" "m4a" (by decide) (by decide)⟩
  rw [h.1]
  decide

/-- C9 counterexample: importing a file named "voice" — a name with no
extension — produces the destination extension "voice", not the "m4a" the
claim's original-extension-or-"m4a" convention prescribes. -/
theorem claim_C9_import_extension_counterexample :
    (handleImport (.picked ⟨some "voice", "content://pick"⟩) (.copied true)
        "dir/" 0 "id1" ⟨[], [], none, none, [], ⟨[], none, none, none⟩⟩).sounds
      = [⟨"id1", "voice", "dir/audio-0.voice"⟩] ∧
    importExtension (some "voice") = "voice" ∧
    specExtension (some "voice") = "m4a" ∧
    importExtension (some "voice") ≠ specExtension (some "voice") := by
  decide

/-- C9 amended: the destination is
`audio-<unix-timestamp-millis>.<ext>` where ext is the text after the last
dot of the picked file's name — the whole name when it contains no dot —
and "m4a" exactly when the picker reports no name. -/
theorem claim_C9_import_destination_amended (dir : String) (now : Nat)
    (newId : String) (st : AppState) (file : PickedFile) :
    (handleImport (.picked file) (.copied true) dir now newId st).sounds.getLast?
      = some ⟨newId, deriveName file.name,
          dir ++ "audio-" ++ toString now ++ "." ++ importExtension file.name⟩ ∧
    importExtension none = "m4a" ∧
    (∀ base ext : String, (∀ ch ∈ ext.data, ch ≠ '.') →
      importExtension (some (base ++ "." ++ ext)) = ext) ∧
    (∀ n : String, (∀ ch ∈ n.data, ch ≠ '.') → importExtension (some n) = n) := by
  refine ⟨?_, rfl, fun b e h => importExtension_after_dot b e h,
    fun n h => importExtension_dotfree n h⟩
  simp [handleImport, setMessage, importDestination]

/-- Witness for the amended C9 at concrete files with and without a dot. -/
theorem claim_C9_import_destination_amended_witness :
    (handleImport (.picked ⟨some "voice", "content://pick"⟩) (.copied true)
        "dir/" 0 "id1" ⟨[], [], none, none, [],
          ⟨[], none, none, none⟩⟩).sounds.getLast?
      = some ⟨"id1", "voice", "dir/audio-0.voice"⟩ ∧
    importExtension (some ("voice" ++ "." ++ "m4a")) = "m4a" := by
  have h := claim_C9_import_destination_amended "dir/" 0 "id1"
    ⟨[], [], none, none, [], ⟨[], none, none, none⟩⟩
    ⟨some "voice", "content://pick"⟩
  refine ⟨?_, h.2.2.1 "voice" "m4a" (by decide)⟩
  rw [h.1]
  decide

/-- C10: clearing a mapping entry with `handleSetMapping key undefined`
keeps the key present in the in-memory object but with an `undefined`
value, touches no other key's entry, makes `onTrigger` on that key take
the "No sound mapped yet." branch, and — because serialization omits
`undefined`-valued properties — leaves the key truly absent after a
save/load round-trip. -/
theorem claim_C10_cleared_key_stays_until_roundtrip (m : Mapping)
    (st : AppState) (t : Trigger) (c isAuto : Bool) :
    mapHasKey (handleSetMapping (triggerKey t) none m) (triggerKey t) = true ∧
    mapLookup (handleSetMapping (triggerKey t) none m) (triggerKey t) = none ∧
    (∀ k', k' ≠ triggerKey t →
      (handleSetMapping (triggerKey t) none m).find? (fun e => e.1 == k')
        = m.find? (fun e => e.1 == k')) ∧
    (onTrigger c t isAuto
        { st with mappings := handleSetMapping (triggerKey t) none m }).message
      = some "No sound mapped yet." ∧
    (loadMappings (saveMappings (handleSetMapping (triggerKey t) none m))).find?
      (fun e => e.1 == triggerKey t) = none := by
  have hself := handleSetMapping_find_self m (triggerKey t) none
  have hlook : mapLookup (handleSetMapping (triggerKey t) none m)
      (triggerKey t) = none := by
    unfold mapLookup
    rw [hself]
  refine ⟨?_, hlook, fun k' hk' => handleSetMapping_find_other m _ none k' hk',
    ?_, ?_⟩
  · exact List.any_eq_true.mpr
      ⟨(triggerKey t, none), List.mem_of_find?_eq_some hself, by simp⟩
  · simp [onTrigger, noSoundMapped, setMessage, hlook]
  · exact roundtrip_drops_valueless _ _ (handleSetMapping_none_val m _)

/-- Witness for C10: clearing "b1-short" in a mapping that also binds
"b2-long", then checking presence, the unchanged other key, the fired
trigger, and the round-trip. -/
theorem claim_C10_cleared_key_stays_until_roundtrip_witness :
    mapHasKey (handleSetMapping "b1-short" none
      [("b1-short", some "x1"), ("b2-long", some "x2")]) "b1-short" = true ∧
    mapLookup (handleSetMapping "b1-short" none
      [("b1-short", some "x1"), ("b2-long", some "x2")]) "b1-short" = none ∧
    (handleSetMapping "b1-short" none
        [("b1-short", some "x1"), ("b2-long", some "x2")]).find?
        (fun e => e.1 == "b2-long")
      = ([("b1-short", some "x1"), ("b2-long", some "x2")] : Mapping).find?
        (fun e => e.1 == "b2-long") ∧
    (loadMappings (saveMappings (handleSetMapping "b1-short" none
        [("b1-short", some "x1"), ("b2-long", some "x2")]))).find?
      (fun e => e.1 == "b1-short") = none := by
  have h := claim_C10_cleared_key_stays_until_roundtrip
    [("b1-short", some "x1"), ("b2-long", some "x2")]
    ⟨[], [], none, none, [], ⟨[], none, none, none⟩⟩ ⟨"b1", .short⟩ true false
  exact ⟨h.1, h.2.1, h.2.2.1 "b2-long" (by decide), h.2.2.2.2⟩

end AudioFeed
